import Mathlib

/-!
Verification of the turn-management core of the `mere` conversational
assistant backend, shallowly embedded from
`backend/conversation_state.py` and `backend/enhanced_nlu_service.py`.

Python dictionaries are modelled as association lists in insertion order;
Python exceptions as `Except String`; Python floats (the `confidence`
field, only ever compared and added by literal decimals) as rationals.
-/

deriving instance DecidableEq for Except

namespace Mere

/-- Python `min(a, b)` on two numbers. -/
def pyMin (a b : ℚ) : ℚ := if a ≤ b then a else b

/-- Dynamically-typed Python value stored in an entities map: either a
`str` or some other object (recorded by its textual rendering). -/
inductive PyVal where
  | vstr (s : String)
  | vother (rendering : String)
deriving DecidableEq, Repr

/-- The Python value passed as the `intent` argument / stored in
`ConversationContext.intent`: `None`, a `str`, or a non-string object
(with its truthiness and textual rendering recorded). -/
inductive PyIntent where
  | pnone
  | pstr (s : String)
  | pother (truthy : Bool) (typeName : String)
deriving DecidableEq, Repr

/-- Python truthiness of the intent value (`not state.intent`):
`None` and the empty string are falsy. -/
def PyIntent.isTruthy : PyIntent → Bool
  | .pnone => false
  | .pstr s => !(s == "")
  | .pother t _ => t

/-- Python `str.lower()`: character-wise lowercasing (ASCII case
mapping, which agrees with `str.lower` on every vocabulary string in
this codebase — the Korean tokens have no case). -/
def pyLower (s : String) : String := String.mk (s.data.map Char.toLower)

/-- Evaluation of `state.intent.lower()`: succeeds on a `str`, raises
`AttributeError` on any non-string object. -/
def PyIntent.lower : PyIntent → Except String String
  | .pstr s => .ok (pyLower s)
  | .pnone => .error "AttributeError: NoneType object has no attribute lower"
  | .pother _ t => .error ("AttributeError: " ++ t ++ " object has no attribute lower")

/-- The seven-value `ConversationState` enum of `conversation_state.py`. -/
inductive ConversationState where
  | parsing
  | validation
  | confirmation
  | execution
  | response
  | interrupted
  | completed
deriving DecidableEq, Repr

/-- The `ConversationContext` dataclass (timestamps and
`previous_context`, which no operation modelled here reads, are
omitted). `entities` is the Python dict in insertion order. -/
structure ConversationContext where
  user_id : String
  conversation_id : String
  current_state : ConversationState
  intent : PyIntent := .pnone
  entities : List (String × PyVal) := []
  confidence : ℚ := 0
  interruption_reason : Option String := none
deriving DecidableEq, Repr

/-- The registry map `active_conversations`, in insertion order. -/
abbrev Registry := List (String × ConversationContext)

/-- Python dict assignment `d[k] = v`: overwrite in place when the key
exists (keeping its position), append otherwise. -/
def pySet (d : List (String × α)) (k : String) (v : α) : List (String × α) :=
  if (d.lookup k).isSome then
    d.map (fun kv => if kv.1 = k then (k, v) else kv)
  else d ++ [(k, v)]

/-- Python `old.update(new)` on dicts: colliding keys are overwritten in
place, new keys are appended in `new` order. -/
def dictUpdate (old upd : List (String × α)) : List (String × α) :=
  old.map (fun kv => (kv.1, (upd.lookup kv.1).getD kv.2))
  ++ upd.filter (fun kv => (old.lookup kv.1).isNone)

/-- The `interruption_intents` vocabulary of `_is_interruption`. -/
def interruption_intents : List String :=
  ["cancel", "stop", "no", "abort", "nevermind", "forget_it", "취소"]

/-- `ConversationStateGraph._is_interruption`: false on a falsy intent,
otherwise lowers the intent (which raises on a non-string) and tests
membership in the cancel vocabulary. -/
def is_interruption (state : ConversationContext) : Except String Bool :=
  if !state.intent.isTruthy then .ok false
  else
    match state.intent.lower with
    | .ok lowered => .ok (interruption_intents.contains lowered)
    | .error e => .error e

/-- The `confirmation_required_intents` destructive set of
`_requires_confirmation`. -/
def confirmation_required_intents : List String :=
  ["delete_memo", "delete_todo", "cancel_event", "delete_all", "clear_data"]

/-- Python `x in listOfStr` when `x` may not be a string: equality with a
string is false for non-strings, so only a matching `str` is a member. -/
def intentMem (i : PyIntent) (l : List String) : Bool :=
  match i with
  | .pstr s => l.contains s
  | _ => false

/-- `ConversationStateGraph._requires_confirmation`: destructive intents
always require confirmation; otherwise confidence below 0.9 does. -/
def requires_confirmation (state : ConversationContext) : Bool :=
  intentMem state.intent confirmation_required_intents
    || decide (state.confidence < 9/10)

/-- Body of the `try` block of `process_input`: interruption check,
then confirmation check, then execution; any Python exception inside
(only `intent.lower()` can raise here) surfaces as `.error`. -/
def resolveTurn (context : ConversationContext) : Except String ConversationContext :=
  match is_interruption context with
  | .error e => .error e
  | .ok true =>
    .ok { context with current_state := .interrupted,
                       interruption_reason := some "user_cancel" }
  | .ok false =>
    if requires_confirmation context then
      .ok { context with current_state := .confirmation }
    else
      .ok { context with current_state := .execution }

/-- The run-time `entities` argument of `process_input`: either an actual
dict, or a non-mapping object on which `dict.update` raises (the carried
string is the rendering of the exception Python raises for it, e.g.
`TypeError` for `None`). -/
inductive EntitiesArg where
  | edict (l : List (String × PyVal))
  | enondict (errRendering : String)
deriving DecidableEq, Repr

/-- `context.entities.update(entities)`: succeeds on a dict, raises on a
non-mapping payload. -/
def updateEntities (old : List (String × PyVal)) :
    EntitiesArg → Except String (List (String × PyVal))
  | .edict l => .ok (dictUpdate old l)
  | .enondict e => .error e

/-- `ConversationStateGraph.process_input`. Returns the registry after
the call together with either the returned context or the propagated
exception. The stored context object is aliased by the registry in
Python, so mutations made before a raise are visible in the registry
even when the exception propagates (`intent` is assigned before
`entities.update`, which is before the `try` block); the `except`
branch likewise leaves its mutated context stored. -/
def process_input (m : Registry) (conversation_id : String) (intent : PyIntent)
    (entities : EntitiesArg) (confidence : ℚ) :
    Registry × Except String ConversationContext :=
  match m.lookup conversation_id with
  | none =>
      (m, .error ("ValueError: Conversation " ++ conversation_id ++ " not found"))
  | some context =>
    let c1 := { context with intent := intent }
    match updateEntities context.entities entities with
    | .error e => (pySet m conversation_id c1, .error e)
    | .ok ents =>
      let c2 := { c1 with entities := ents, confidence := confidence }
      match resolveTurn c2 with
      | .ok c3 => (pySet m conversation_id c3, .ok c3)
      | .error e =>
        let c3 := { c2 with current_state := .interrupted,
                            interruption_reason := some ("processing_error: " ++ e) }
        (pySet m conversation_id c3, .ok c3)

/-- `ConversationStateGraph.get_conversation`: a plain lookup returning
`None` (never raising) on an unknown id. -/
def get_conversation (m : Registry) (conversation_id : String) :
    Option ConversationContext :=
  m.lookup conversation_id

/-- `ConversationStateGraph.end_conversation`: marks the conversation
`Completed` when present (keeping it stored), silently does nothing on
an unknown id. -/
def end_conversation (m : Registry) (conversation_id : String) : Registry :=
  match m.lookup conversation_id with
  | some context =>
      pySet m conversation_id { context with current_state := .completed }
  | none => m

/-- `ConversationStateGraph.get_active_conversations`: all entries whose
state is not `Completed`. -/
def get_active_conversations (m : Registry) : Registry :=
  m.filter (fun kv => !(kv.2.current_state == .completed))

/-!
The `EnhancedNLUService` side (`enhanced_nlu_service.py`): the
deterministic tail of `process_with_context` that runs after the
language-model call, plus the reference resolver and completion-entity
extraction.
-/

/-- The part of `ContextualNLUResult` that the post-NLU processing of
`process_with_context` reads or writes: the intent name, the raw text,
the confidence, the entities map and the confirmation flag. -/
structure ContextualNLUResult where
  intentName : String
  text : String
  confidence : ℚ
  entities : List (String × PyVal)
  requiresConfirmation : Bool
deriving DecidableEq, Repr

/-- The `confirmation_mapping` vocabulary of
`_handle_confirmation_response`. -/
def confirmation_mapping : List (String × String) :=
  [("yes", "confirm"), ("no", "reject"),
   ("네", "confirm"), ("아니요", "reject"),
   ("맞아", "confirm"), ("틀려", "reject"),
   ("확인", "confirm"), ("취소", "reject")]

/-- `EnhancedNLUService._handle_confirmation_response`: rewrite a mapped
reply token to `confirm`/`reject` and boost confidence by 0.1 capped at
1.0; unmapped intents pass through unchanged. -/
def handle_confirmation_response (result : ContextualNLUResult) : ContextualNLUResult :=
  match confirmation_mapping.lookup (pyLower result.intentName) with
  | some mapped =>
      { result with intentName := mapped,
                    confidence := pyMin (result.confidence + 1/10) 1 }
  | none => result

/-- Rendering of a `PyIntent` under Python string interpolation
(`f"complete_..."`). -/
def PyIntent.interp : PyIntent → String
  | .pnone => "None"
  | .pstr s => s
  | .pother _ t => t

/-- The `time_patterns` table of `_extract_completion_entities`:
regex pattern paired with the entity key it fills. -/
def time_patterns : List (String × String) :=
  [("(\\d+)시", "time_hour"),
   ("(\\d+)분", "time_minute"),
   ("(내일|오늘|모레)", "date_relative"),
   ("(\\d+월|\\d+일)", "date_specific")]

/-- Evaluation of the name `re` followed by `.findall(pattern, text)`
inside `enhanced_nlu_service.py`: the module never imports `re` (its
imports are os, json, logging, typing, openai, dataclasses, datetime and
the two project modules), so evaluating the name raises `NameError`
before any pattern matching can happen. -/
def reFindall (_pattern _text : String) : Except String (List String) :=
  .error "NameError: name re is not defined"

/-- `EnhancedNLUService._extract_completion_entities`: iterate the
pattern table, calling `re.findall` on each pattern and storing the
first match under the pattern's entity key. -/
def extract_completion_entities (text : String) :
    Except String (List (String × PyVal)) :=
  time_patterns.foldlM
    (fun entities pt => do
      let found ← reFindall pt.1 text
      if found.isEmpty then pure entities
      else pure (pySet entities pt.2 (.vstr (found.headD ""))))
    []

/-- `EnhancedNLUService._handle_validation_response`: when the stored
conversation has a truthy intent and the result carries no entities,
relabel the intent as a completion of the previous one and extract
completion entities from the raw text. -/
def handle_validation_response (result : ContextualNLUResult)
    (context : ConversationContext) : Except String ContextualNLUResult :=
  if context.intent.isTruthy && result.entities.isEmpty then
    match extract_completion_entities result.text with
    | .ok ents =>
        .ok { result with intentName := "complete_" ++ context.intent.interp,
                          entities := ents }
    | .error e => .error e
  else .ok result

/-- The interruption vocabulary of `_is_interruption_intent` (a Python
set; only membership is observable). -/
def nlu_interruption_intents : List String :=
  ["cancel", "stop", "abort", "quit", "exit",
   "취소", "중단", "그만", "나가기"]

/-- `EnhancedNLUService._is_interruption_intent`. -/
def is_interruption_intent (intent : String) : Bool :=
  nlu_interruption_intents.contains (pyLower intent)

/-- `EnhancedNLUService._enhance_with_state_logic`: confirmation-state
and validation-state handling keyed on the UPDATED conversation state,
then the interruption flag on the (possibly rewritten) intent. -/
def enhance_with_state_logic (result : ContextualNLUResult)
    (context : ConversationContext) : Except String ContextualNLUResult :=
  let step1 : Except String ContextualNLUResult :=
    if context.current_state = ConversationState.confirmation then
      .ok (handle_confirmation_response result)
    else if context.current_state = ConversationState.validation then
      handle_validation_response result context
    else
      .ok result
  match step1 with
  | .error e => .error e
  | .ok r1 =>
    if is_interruption_intent r1.intentName then
      .ok { r1 with requiresConfirmation := true }
    else
      .ok r1

/-- The deterministic tail of `EnhancedNLUService.process_with_context`
(lines 96-125), given the language-model output
`(nluIntent, nluConfidence, nluEntities, nluReqConf)` for raw input
`text` on conversation `conversation_id`: build the contextual result;
when the conversation exists, run the state machine on the raw output
and then `_enhance_with_state_logic` against the updated context.
Returns the registry after the call and either the final contextual
result or a propagated exception. -/
def process_with_context_tail (m : Registry) (conversation_id : String)
    (text : String) (nluIntent : String) (nluConfidence : ℚ)
    (nluEntities : List (String × PyVal)) (nluReqConf : Bool) :
    Registry × Except String ContextualNLUResult :=
  let r0 : ContextualNLUResult :=
    { intentName := nluIntent, text := text, confidence := nluConfidence,
      entities := nluEntities, requiresConfirmation := nluReqConf }
  match m.lookup conversation_id with
  | none => (m, .ok r0)
  | some _ =>
    match process_input m conversation_id (.pstr nluIntent)
        (.edict nluEntities) nluConfidence with
    | (m2, .error e) => (m2, .error e)
    | (m2, .ok updated) =>
      match enhance_with_state_logic r0 updated with
      | .ok r => (m2, .ok r)
      | .error e => (m2, .error e)

/-- The keys of the `reference_patterns` table of `EnhancedNLUService`
(`resolve_references` only ever reads the keys), in definition order. -/
def reference_patterns : List String :=
  ["그것", "그거", "방금", "아까", "그", "이", "저"]

/-- Python `pat in s` substring test, on character lists (structural,
matching CPython semantics for a nonempty pattern). -/
def occursCh (pat : List Char) : List Char → Bool
  | [] => pat.isEmpty
  | c :: t => pat.isPrefixOf (c :: t) || occursCh pat t

/-- Python `pat in s` on strings. -/
def pyContains (s pat : String) : Bool :=
  occursCh pat.data s.data

/-- Fuel-driven worker for Python `str.replace`: replace every
non-overlapping occurrence of `pat`, scanning left to right. The fuel,
started at the list length, bounds recursion; with a nonempty pattern
each step consumes at least one character so the fuel never runs out. -/
def replaceAllCh : Nat → List Char → List Char → List Char → List Char
  | 0, _, _, l => l
  | _ + 1, _, _, [] => []
  | fuel + 1, pat, rep, c :: t =>
    if pat.isPrefixOf (c :: t) then
      rep ++ replaceAllCh fuel pat rep ((c :: t).drop pat.length)
    else
      c :: replaceAllCh fuel pat rep t

/-- Python `s.replace(pat, rep)`: every occurrence is replaced. -/
def pyReplace (s pat rep : String) : String :=
  String.mk (replaceAllCh s.data.length pat.data rep.data s.data)

/-- The first string-typed value met while iterating an entities map in
insertion order (the inner loop of `resolve_references`). -/
def firstStrValue (entities : List (String × PyVal)) : Option String :=
  entities.findSome? (fun kv =>
    match kv.2 with
    | .vstr s => some s
    | .vother _ => none)

/-- `EnhancedNLUService.resolve_references`: for each marker key, when
the marker occurs in the ORIGINAL text, replace it in the accumulated
text by the first string-typed entity value (the inner loop breaks at
the first string value; non-string values are skipped; with none, no
replacement happens). Returns the text unchanged when the context is
absent or its entities map is empty. -/
def resolve_references (text : String) (context : Option ConversationContext) :
    String :=
  match context with
  | none => text
  | some ctx =>
    if ctx.entities.isEmpty then text
    else
      reference_patterns.foldl
        (fun resolved reference =>
          if pyContains text reference then
            match firstStrValue ctx.entities with
            | some v => pyReplace resolved reference v
            | none => resolved
          else resolved)
        text

/-!  Lookup lemmas for the association-list model of Python dicts. -/

theorem lookup_append (l1 l2 : List (String × α)) (k : String) :
    (l1 ++ l2).lookup k =
      match l1.lookup k with
      | some v => some v
      | none => l2.lookup k := by
  induction l1 with
  | nil => simp [List.lookup]
  | cons kv t ih =>
    obtain ⟨k0, v0⟩ := kv
    by_cases h : k = k0
    · subst h
      simp [List.lookup]
    · have hb : (k == k0) = false := beq_false_of_ne h
      simp [List.lookup, hb, ih]

theorem lookup_mapVal (l : List (String × α)) (g : String → α → α) (k : String) :
    (l.map (fun kv => (kv.1, g kv.1 kv.2))).lookup k = (l.lookup k).map (g k) := by
  induction l with
  | nil => simp [List.lookup]
  | cons kv t ih =>
    obtain ⟨k0, v0⟩ := kv
    by_cases h : k = k0
    · subst h
      simp [List.lookup]
    · have hb : (k == k0) = false := beq_false_of_ne h
      simp [List.lookup, hb, ih]

theorem lookup_filterKey (l : List (String × α)) (p : String → Bool) (k : String) :
    ((l.filter (fun kv => p kv.1)).lookup k) = if p k then l.lookup k else none := by
  induction l with
  | nil => simp [List.lookup]
  | cons kv t ih =>
    obtain ⟨k0, v0⟩ := kv
    by_cases h : k = k0
    · subst h
      by_cases hp : p k
      · simp [List.lookup, List.filter, hp]
      · simp [List.filter, hp, ih]
    · have hb : (k == k0) = false := beq_false_of_ne h
      by_cases hp : p k0
      · simp [List.lookup, List.filter, hp, hb, ih]
      · simp [List.lookup, List.filter, hp, hb, ih]

/-- Key-by-key description of `dict.update`: the merged map answers with
the new value where the update supplies one, and with the old value
elsewhere. -/
theorem lookup_dictUpdate (old upd : List (String × α)) (k : String) :
    (dictUpdate old upd).lookup k =
      match upd.lookup k with
      | some v => some v
      | none => old.lookup k := by
  unfold dictUpdate
  rw [lookup_append]
  rw [lookup_mapVal old (fun k1 v => (upd.lookup k1).getD v) k]
  rw [lookup_filterKey upd (fun k1 => (old.lookup k1).isNone) k]
  cases ho : old.lookup k with
  | some v =>
    cases hu : upd.lookup k with
    | some w => simp [ho, hu]
    | none => simp [ho, hu]
  | none =>
    cases hu : upd.lookup k with
    | some w => simp [ho, hu]
    | none => simp [ho, hu]

theorem lookup_map_overwrite (d : List (String × α)) (k : String) (v : α)
    (h : (d.lookup k).isSome) :
    ((d.map (fun kv => if kv.1 = k then (k, v) else kv)).lookup k) = some v := by
  induction d with
  | nil => simp [List.lookup] at h
  | cons kv t ih =>
    obtain ⟨k0, v0⟩ := kv
    simp only [List.map_cons]
    by_cases hk : k0 = k
    · subst hk
      have he : (if ((k0, v0) : String × α).1 = k0 then (k0, v) else (k0, v0)) = (k0, v) :=
        if_pos rfl
      rw [he]
      simp [List.lookup]
    · have hk2 : ¬ (k = k0) := fun hh => hk hh.symm
      have hb : (k == k0) = false := beq_false_of_ne hk2
      have he : (if ((k0, v0) : String × α).1 = k then (k, v) else (k0, v0)) = (k0, v0) :=
        if_neg hk
      rw [he]
      simp only [List.lookup, hb] at h ⊢
      exact ih h

/-- Python `d[k] = v` makes a subsequent `d[k]` read back `v`. -/
theorem lookup_pySet (d : List (String × α)) (k : String) (v : α) :
    (pySet d k v).lookup k = some v := by
  unfold pySet
  by_cases h : (d.lookup k).isSome
  · simp [h]
    exact lookup_map_overwrite d k v h
  · simp [h]
    rw [lookup_append]
    cases hd : d.lookup k with
    | some w => simp [hd] at h
    | none => simp [List.lookup]

/-- A stored entry that satisfies the filter is still found, with the
same value, after filtering (the first hit for a key is preserved). -/
theorem lookup_filter_of_sat (l : List (String × α)) (p : String × α → Bool)
    (k : String) (c : α) (hl : l.lookup k = some c) (hp : p (k, c) = true) :
    (l.filter p).lookup k = some c := by
  induction l with
  | nil => simp [List.lookup] at hl
  | cons kv t ih =>
    obtain ⟨k0, v0⟩ := kv
    by_cases h : k = k0
    · subst h
      simp [List.lookup] at hl
      subst hl
      simp [List.filter, hp, List.lookup]
    · have hb : (k == k0) = false := beq_false_of_ne h
      simp [List.lookup, hb] at hl
      by_cases hp0 : p (k0, v0)
      · simp [List.filter, hp0, List.lookup, hb]
        exact ih hl
      · simp [List.filter, hp0]
        exact ih hl

/-!  Characterizations of the turn resolver and of `process_input`. -/

/-- On a string intent the turn resolver never raises and decides by the
three-way priority rule. -/
theorem resolveTurn_pstr (ctx : ConversationContext) (s : String)
    (h : ctx.intent = .pstr s) :
    resolveTurn ctx =
      .ok (if pyLower s ∈ interruption_intents then
             { ctx with current_state := .interrupted,
                        interruption_reason := some "user_cancel" }
           else if s ∈ confirmation_required_intents ∨ ctx.confidence < 9/10 then
             { ctx with current_state := .confirmation }
           else
             { ctx with current_state := .execution }) := by
  by_cases hs : s = ""
  · subst hs
    have h1 : ¬ (pyLower "" ∈ interruption_intents) := by decide
    simp [resolveTurn, is_interruption, requires_confirmation, intentMem, h,
      PyIntent.isTruthy, PyIntent.lower, h1]
    by_cases hc : "" ∈ confirmation_required_intents ∨ ctx.confidence < 9/10 <;>
      simp [hc]
  · have ht : (PyIntent.pstr s).isTruthy = true := by
      simp [PyIntent.isTruthy, hs]
    by_cases hi : pyLower s ∈ interruption_intents
    · simp [resolveTurn, is_interruption, requires_confirmation, intentMem, h,
        ht, PyIntent.lower, hi]
    · simp [resolveTurn, is_interruption, requires_confirmation, intentMem, h,
        ht, PyIntent.lower, hi]
      by_cases hc : s ∈ confirmation_required_intents ∨ ctx.confidence < 9/10 <;>
        simp [hc]

/-- Unfolding of `process_input` on a known conversation id with a dict
entities payload. -/
theorem process_input_found (m : Registry) (cid : String)
    (ctx : ConversationContext) (i : PyIntent) (ents : List (String × PyVal))
    (c : ℚ) (hm : m.lookup cid = some ctx) :
    process_input m cid i (.edict ents) c =
      (match resolveTurn { ctx with intent := i,
                                    entities := dictUpdate ctx.entities ents,
                                    confidence := c } with
       | .ok c3 => (pySet m cid c3, .ok c3)
       | .error e =>
         let c3 := { ctx with intent := i,
                              entities := dictUpdate ctx.entities ents,
                              confidence := c,
                              current_state := .interrupted,
                              interruption_reason :=
                                some ("processing_error: " ++ e) }
         (pySet m cid c3, .ok c3)) := by
  simp [process_input, hm, updateEntities]

/-- The turn resolver only rewrites `current_state` and
`interruption_reason`; the data fields survive unchanged. -/
theorem resolveTurn_preserves (ctx c3 : ConversationContext)
    (h : resolveTurn ctx = .ok c3) :
    c3.entities = ctx.entities ∧ c3.intent = ctx.intent ∧
      c3.confidence = ctx.confidence := by
  unfold resolveTurn at h
  cases hi : is_interruption ctx with
  | error e => rw [hi] at h; cases h
  | ok b =>
    rw [hi] at h
    cases b with
    | true =>
      cases h
      exact ⟨rfl, rfl, rfl⟩
    | false =>
      by_cases hc : requires_confirmation ctx <;> simp [hc] at h <;>
        rw [← h] <;> exact ⟨rfl, rfl, rfl⟩

/-!  Concrete fixtures used to instantiate the quantified theorems. -/

/-- A freshly started conversation, as `start_conversation` creates it. -/
def ctxW : ConversationContext :=
  { user_id := "u1", conversation_id := "c1", current_state := .parsing }

/-- A registry holding the single conversation `"c1"`. -/
def regW : Registry := [("c1", ctxW)]

/-- C1: every `process_input` call on a known id with a string intent
succeeds, and the stored conversation lands in exactly one of the three
resting states, decided in strict priority order: interruption first
(state `Interrupted`, reason `"user_cancel"`), then the confirmation
policy (state `Confirmation`), else `Execution`. -/
theorem C1_resting_state_priority (m : Registry) (cid : String)
    (ctx : ConversationContext) (s : String) (ents : List (String × PyVal))
    (c : ℚ) (hm : m.lookup cid = some ctx) :
    ∃ ctx2,
      (process_input m cid (.pstr s) (.edict ents) c).2 = .ok ctx2 ∧
      (process_input m cid (.pstr s) (.edict ents) c).1.lookup cid = some ctx2 ∧
      (ctx2.current_state = .interrupted ∨ ctx2.current_state = .confirmation ∨
        ctx2.current_state = .execution) ∧
      (if pyLower s ∈ interruption_intents then
         ctx2.current_state = .interrupted ∧
           ctx2.interruption_reason = some "user_cancel"
       else if s ∈ confirmation_required_intents ∨ c < 9/10 then
         ctx2.current_state = .confirmation
       else
         ctx2.current_state = .execution) := by
  rw [process_input_found m cid ctx (.pstr s) ents c hm,
    resolveTurn_pstr _ s rfl]
  by_cases hi : pyLower s ∈ interruption_intents
  · rw [if_pos hi]
    exact ⟨_, rfl, lookup_pySet m cid _, Or.inl rfl, by rw [if_pos hi]; exact ⟨rfl, rfl⟩⟩
  · rw [if_neg hi]
    by_cases hc : s ∈ confirmation_required_intents ∨ c < 9/10
    · have hc2 : s ∈ confirmation_required_intents ∨
          ({ ctx with intent := PyIntent.pstr s,
                      entities := dictUpdate ctx.entities ents,
                      confidence := c } : ConversationContext).confidence < 9/10 := hc
      rw [if_pos hc2]
      exact ⟨_, rfl, lookup_pySet m cid _, Or.inr (Or.inl rfl),
        by rw [if_neg hi, if_pos hc]⟩
    · have hc2 : ¬ (s ∈ confirmation_required_intents ∨
          ({ ctx with intent := PyIntent.pstr s,
                      entities := dictUpdate ctx.entities ents,
                      confidence := c } : ConversationContext).confidence < 9/10) := hc
      rw [if_neg hc2]
      exact ⟨_, rfl, lookup_pySet m cid _, Or.inr (Or.inr rfl),
        by rw [if_neg hi, if_neg hc]⟩

/-- Witness for C1 at the concrete registry `regW`, intent
`"delete_memo"` and confidence 1. -/
theorem C1_resting_state_priority_witness :
    ∃ ctx2,
      (process_input regW "c1" (.pstr "delete_memo") (.edict []) 1).2 = .ok ctx2 ∧
      (process_input regW "c1" (.pstr "delete_memo") (.edict []) 1).1.lookup "c1"
        = some ctx2 ∧
      (ctx2.current_state = .interrupted ∨ ctx2.current_state = .confirmation ∨
        ctx2.current_state = .execution) ∧
      (if pyLower "delete_memo" ∈ interruption_intents then
         ctx2.current_state = .interrupted ∧
           ctx2.interruption_reason = some "user_cancel"
       else if "delete_memo" ∈ confirmation_required_intents ∨ (1 : ℚ) < 9/10 then
         ctx2.current_state = .confirmation
       else
         ctx2.current_state = .execution) :=
  C1_resting_state_priority regW "c1" ctxW "delete_memo" [] 1 (by decide)

/-- C2: the confirmation policy returns true on every member of the
fixed destructive set regardless of confidence, and otherwise returns
true exactly when confidence is below 0.9. -/
theorem C2_confirmation_policy (ctx : ConversationContext) (s : String)
    (h : ctx.intent = .pstr s) :
    (s ∈ confirmation_required_intents → requires_confirmation ctx = true) ∧
    (s ∉ confirmation_required_intents →
      (requires_confirmation ctx = true ↔ ctx.confidence < 9/10)) := by
  constructor
  · intro hs
    simp [requires_confirmation, intentMem, h, hs]
  · intro hs
    simp [requires_confirmation, intentMem, h, hs]

/-- Witness for C2 at the destructive intent `"delete_memo"` and at the
non-destructive intent it is applied to in the second conjunct. -/
theorem C2_confirmation_policy_witness :
    ("delete_memo" ∈ confirmation_required_intents →
      requires_confirmation
        { ctxW with intent := .pstr "delete_memo", confidence := 1 } = true) ∧
    ("delete_memo" ∉ confirmation_required_intents →
      (requires_confirmation
          { ctxW with intent := .pstr "delete_memo", confidence := 1 } = true ↔
        ({ ctxW with intent := .pstr "delete_memo", confidence := 1 }
            : ConversationContext).confidence < 9/10)) :=
  C2_confirmation_policy
    { ctxW with intent := .pstr "delete_memo", confidence := 1 } "delete_memo" rfl

/-- A conversation that already accumulated one string entity. -/
def ctxE : ConversationContext :=
  { user_id := "u1", conversation_id := "c1", current_state := .parsing,
    entities := [("topic", .vstr "회의")] }

/-- A registry holding the single conversation `"c1"` with one entity. -/
def regE : Registry := [("c1", ctxE)]

/-- C4: a turn on a known id never loses an entities key — every key
stored before the turn is still stored after it, holding either its
prior value or precisely the value the new turn supplies for it. -/
theorem C4_entities_monotone (m : Registry) (cid : String)
    (ctx : ConversationContext) (i : PyIntent) (ents : List (String × PyVal))
    (c : ℚ) (hm : m.lookup cid = some ctx) (k : String) (v : PyVal)
    (hk : ctx.entities.lookup k = some v) :
    ∃ ctx2, (process_input m cid i (.edict ents) c).1.lookup cid = some ctx2 ∧
      ∃ v2, ctx2.entities.lookup k = some v2 ∧
        (v2 = v ∨ ents.lookup k = some v2) := by
  have hmerge : ∃ v2, (dictUpdate ctx.entities ents).lookup k = some v2 ∧
      (v2 = v ∨ ents.lookup k = some v2) := by
    rw [lookup_dictUpdate]
    cases he : ents.lookup k with
    | some w => exact ⟨w, rfl, Or.inr rfl⟩
    | none => exact ⟨v, hk, Or.inl rfl⟩
  rw [process_input_found m cid ctx i ents c hm]
  cases hr : resolveTurn { ctx with intent := i, entities := dictUpdate ctx.entities ents, confidence := c } with
  | ok c3 =>
    obtain ⟨hent, -, -⟩ := resolveTurn_preserves _ c3 hr
    exact ⟨c3, lookup_pySet m cid c3, by rw [hent]; exact hmerge⟩
  | error e =>
    exact ⟨_, lookup_pySet m cid _, hmerge⟩

/-- Witness for C4: the stored key `"topic"` survives a turn that
overwrites it. -/
theorem C4_entities_monotone_witness :
    ∃ ctx2, (process_input regE "c1" (.pstr "create_memo")
        (.edict [("topic", .vstr "점심")]) 1).1.lookup "c1" = some ctx2 ∧
      ∃ v2, ctx2.entities.lookup "topic" = some v2 ∧
        (v2 = .vstr "회의" ∨
          ([("topic", PyVal.vstr "점심")]).lookup "topic" = some v2) :=
  C4_entities_monotone regE "c1" ctxE (.pstr "create_memo")
    [("topic", .vstr "점심")] 1 (by decide) "topic" (.vstr "회의") (by decide)

/-- C5 counterexample: on an unknown id, `get_conversation` returns
`None` and `end_conversation` silently leaves the registry unchanged —
neither raises — while only `process_input` signals the not-found
error; the claim that every registry operation raises
`ConversationNotFound` on an unknown id is therefore false. -/
theorem C5_counterexample :
    get_conversation [] "missing" = none ∧
    end_conversation [] "missing" = [] ∧
    (process_input [] "missing" (.pstr "hello") (.edict []) 1).2 =
      .error "ValueError: Conversation missing not found" := by
  refine ⟨rfl, rfl, ?_⟩
  simp [process_input, List.lookup]

/-- C5 (amended): on an unknown id, `process_input` raises the
not-found error to the caller with the registry unchanged, while
`get_conversation` returns absent and `end_conversation` is a silent
no-op, neither raising. -/
theorem C5_unknown_id (m : Registry) (cid : String) (i : PyIntent)
    (e : EntitiesArg) (c : ℚ) (hm : m.lookup cid = none) :
    process_input m cid i e c =
      (m, .error ("ValueError: Conversation " ++ cid ++ " not found")) ∧
    get_conversation m cid = none ∧
    end_conversation m cid = m := by
  refine ⟨?_, hm, ?_⟩
  · simp [process_input, hm]
  · simp [end_conversation, hm]

/-- Witness for C5 (amended) on the unknown id `"nope"`. -/
theorem C5_unknown_id_witness :
    process_input regW "nope" (.pstr "hello") (.edict []) 1 =
      (regW, .error ("ValueError: Conversation " ++ "nope" ++ " not found")) ∧
    get_conversation regW "nope" = none ∧
    end_conversation regW "nope" = regW :=
  C5_unknown_id regW "nope" (.pstr "hello") (.edict []) 1 (by decide)

/-- C6: when the turn resolution inside `process_input` raises, the
exception is caught at the turn boundary: the call still returns the
conversation, now `Interrupted` with reason `"processing_error: "`
followed by the exception detail, and that conversation is stored. -/
theorem C6_processing_error (m : Registry) (cid : String)
    (ctx : ConversationContext) (i : PyIntent) (ents : List (String × PyVal))
    (c : ℚ) (e : String) (hm : m.lookup cid = some ctx)
    (hres : resolveTurn { ctx with intent := i, entities := dictUpdate ctx.entities ents, confidence := c } = .error e) :
    ∃ ctx2, (process_input m cid i (.edict ents) c).2 = .ok ctx2 ∧
      (process_input m cid i (.edict ents) c).1.lookup cid = some ctx2 ∧
      ctx2.current_state = .interrupted ∧
      ctx2.interruption_reason = some ("processing_error: " ++ e) := by
  rw [process_input_found m cid ctx i ents c hm, hres]
  exact ⟨_, rfl, lookup_pySet m cid _, rfl, rfl⟩

/-- Witness for C6: a non-string intent object makes `intent.lower()`
raise inside the resolver; the turn still returns, `Interrupted`. -/
theorem C6_processing_error_witness :
    ∃ ctx2, (process_input regW "c1" (.pother true "int") (.edict []) 1).2
        = .ok ctx2 ∧
      (process_input regW "c1" (.pother true "int") (.edict []) 1).1.lookup "c1"
        = some ctx2 ∧
      ctx2.current_state = .interrupted ∧
      ctx2.interruption_reason = some ("processing_error: " ++
        "AttributeError: int object has no attribute lower") :=
  C6_processing_error regW "c1" ctxW (.pother true "int") [] 1
    "AttributeError: int object has no attribute lower" (by decide) (by rfl)

/-- C7 counterexample: a non-mapping entities payload is not coerced to
an empty map — the `dict.update` exception propagates to the caller
(the update runs before the `try` block). -/
theorem C7_counterexample :
    (process_input regW "c1" (.pstr "hello")
        (.enondict "TypeError: NoneType object is not iterable") 1).2 =
      .error "TypeError: NoneType object is not iterable" := by
  rfl

/-- C7 (amended): on a known id with a non-mapping entities payload,
`process_input` lets the `dict.update` exception propagate to the
caller; the turn is aborted before the resolver runs, and the stored
conversation keeps its previous entity map (only `intent`, assigned
first, is already overwritten). -/
theorem C7_nonmap_entities (m : Registry) (cid : String)
    (ctx : ConversationContext) (i : PyIntent) (msg : String) (c : ℚ)
    (hm : m.lookup cid = some ctx) :
    (process_input m cid i (.enondict msg) c).2 = .error msg ∧
    (process_input m cid i (.enondict msg) c).1.lookup cid =
      some { ctx with intent := i } := by
  constructor
  · simp [process_input, hm, updateEntities]
  · simp [process_input, hm, updateEntities, lookup_pySet]

/-- Witness for C7 (amended) at a concrete registry. -/
theorem C7_nonmap_entities_witness :
    (process_input regW "c1" (.pstr "hello")
        (.enondict "TypeError: NoneType object is not iterable") 1).2 =
      .error "TypeError: NoneType object is not iterable" ∧
    (process_input regW "c1" (.pstr "hello")
        (.enondict "TypeError: NoneType object is not iterable") 1).1.lookup "c1" =
      some { ctxW with intent := .pstr "hello" } :=
  C7_nonmap_entities regW "c1" ctxW (.pstr "hello")
    "TypeError: NoneType object is not iterable" 1 (by decide)

/-- C10: `Completed` is not absorbing — after `end_conversation`, a
further `process_input` on the same id still runs the full resolution,
moves the conversation to a non-`Completed` resting state, and the
conversation reappears in `get_active_conversations`. -/
theorem C10_completed_not_absorbing (m : Registry) (cid : String)
    (ctx : ConversationContext) (s : String) (ents : List (String × PyVal))
    (c : ℚ) (hm : m.lookup cid = some ctx) :
    ∃ ctxC,
      (end_conversation m cid).lookup cid = some ctxC ∧
      ctxC.current_state = .completed ∧
      ∃ ctx2,
        (process_input (end_conversation m cid) cid (.pstr s) (.edict ents) c).2
          = .ok ctx2 ∧
        ctx2.current_state ≠ .completed ∧
        (get_active_conversations
            (process_input (end_conversation m cid) cid
              (.pstr s) (.edict ents) c).1).lookup cid = some ctx2 := by
  have h1 : (end_conversation m cid).lookup cid =
      some { ctx with current_state := .completed } := by
    rw [end_conversation, hm]
    exact lookup_pySet m cid _
  refine ⟨_, h1, rfl, ?_⟩
  rw [process_input_found _ cid _ (.pstr s) ents c h1, resolveTurn_pstr _ s rfl]
  by_cases hi : pyLower s ∈ interruption_intents
  · rw [if_pos hi]
    refine ⟨_, rfl, by simp, ?_⟩
    exact lookup_filter_of_sat _ _ cid _ (lookup_pySet _ cid _) rfl
  · rw [if_neg hi]
    by_cases hc : s ∈ confirmation_required_intents ∨
        ({ ctx with current_state := ConversationState.completed, intent := PyIntent.pstr s, entities := dictUpdate ctx.entities ents, confidence := c } : ConversationContext).confidence < 9/10
    · rw [if_pos hc]
      refine ⟨_, rfl, by simp, ?_⟩
      exact lookup_filter_of_sat _ _ cid _ (lookup_pySet _ cid _) rfl
    · rw [if_neg hc]
      refine ⟨_, rfl, by simp, ?_⟩
      exact lookup_filter_of_sat _ _ cid _ (lookup_pySet _ cid _) rfl

/-- Witness for C10 on the concrete registry `regW`. -/
theorem C10_completed_not_absorbing_witness :
    ∃ ctxC,
      (end_conversation regW "c1").lookup "c1" = some ctxC ∧
      ctxC.current_state = .completed ∧
      ∃ ctx2,
        (process_input (end_conversation regW "c1") "c1"
            (.pstr "hello") (.edict []) 1).2 = .ok ctx2 ∧
        ctx2.current_state ≠ .completed ∧
        (get_active_conversations
            (process_input (end_conversation regW "c1") "c1"
              (.pstr "hello") (.edict []) 1).1).lookup "c1" = some ctx2 :=
  C10_completed_not_absorbing regW "c1" ctxW "hello" [] 1 (by decide)

/-!  The NLU-side claims. -/

/-- C9 (code evaluation): `_extract_completion_entities` raises
`NameError` on every input, because `enhanced_nlu_service.py` never
imports `re`; the documented contract (returns a possibly empty entity
map, never raises) is violated on every call. -/
theorem C9_extraction_always_raises (text : String) :
    extract_completion_entities text =
      .error "NameError: name re is not defined" := rfl

/-- First-occurrence-only replacement, for stating the claim's reading
of `resolve_references`. -/
def replaceFirstCh (pat rep : List Char) : List Char → List Char
  | [] => []
  | c :: t =>
    if pat.isPrefixOf (c :: t) then rep ++ (c :: t).drop pat.length
    else c :: replaceFirstCh pat rep t

/-- Replacement of only the first occurrence, as the claim words it. -/
def pyReplaceFirst (s pat rep : String) : String :=
  String.mk (replaceFirstCh pat.data rep.data s.data)

/-- Modelled from the claim's wording of §4.6: identical to
`resolve_references` except that only the FIRST occurrence of each
marker is replaced. -/
def resolve_references_claim (text : String)
    (context : Option ConversationContext) : String :=
  match context with
  | none => text
  | some ctx =>
    if ctx.entities.isEmpty then text
    else
      reference_patterns.foldl
        (fun resolved reference =>
          if pyContains text reference then
            match firstStrValue ctx.entities with
            | some v => pyReplaceFirst resolved reference v
            | none => resolved
          else resolved)
        text

/-- C8 counterexample: on the text `"이 이"` with one string entity,
the code replaces BOTH occurrences of the marker `"이"` (Python
`str.replace` replaces all occurrences), while the claim's
first-occurrence reading predicts only the first is replaced. -/
theorem C8_counterexample :
    resolve_references "이 이" (some ctxE) = "회의 회의" ∧
    resolve_references_claim "이 이" (some ctxE) = "회의 이" ∧
    resolve_references "이 이" (some ctxE) ≠
      resolve_references_claim "이 이" (some ctxE) := by
  refine ⟨rfl, rfl, ?_⟩
  decide

/-- The amended behavior of `resolve_references`, worded from the claim
with the one forced change: for each marker of the fixed set occurring
in the original text, EVERY occurrence is replaced (in the accumulated
text) by the first string-typed entity value in insertion order; with no
string-typed entity value (in particular with no entities, or an absent
context) the text is returned unchanged. -/
def resolve_references_amended (text : String)
    (context : Option ConversationContext) : String :=
  match context with
  | none => text
  | some ctx =>
    match firstStrValue ctx.entities with
    | none => text
    | some v =>
      reference_patterns.foldl
        (fun resolved reference =>
          if pyContains text reference then pyReplace resolved reference v
          else resolved)
        text

theorem foldl_keep (l : List String) (t : String) :
    l.foldl (fun acc _ => acc) t = t := by
  induction l generalizing t with
  | nil => rfl
  | cons x xs ih => simp [List.foldl, ih t]

/-- C8 (amended): `resolve_references` is total and agrees everywhere
with the amended description — all occurrences of each marker found in
the text are replaced by the first string-typed entity value, and the
text is unchanged when no string-typed entity value exists. -/
theorem C8_all_occurrences (text : String)
    (context : Option ConversationContext) :
    resolve_references text context = resolve_references_amended text context := by
  cases context with
  | none => rfl
  | some ctx =>
    unfold resolve_references resolve_references_amended
    by_cases he : ctx.entities.isEmpty
    · have hv : firstStrValue ctx.entities = none := by
        cases hent : ctx.entities with
        | nil => rfl
        | cons kv t => rw [hent] at he; simp [List.isEmpty] at he
      simp [he, hv]
    · simp only [he, if_false]
      cases hv : firstStrValue ctx.entities with
      | none => simp [hv, foldl_keep]
      | some v => simp [hv]

/-!  C3: when and how the confirmation mapper runs. -/

/-- When the updated conversation is in `Confirmation` and the result's
lowered intent maps to `confirm`, the enhancement step rewrites the
returned result: intent `confirm`, confidence boosted by 0.1, capped. -/
theorem enhance_confirmation (r : ContextualNLUResult)
    (ctx2 : ConversationContext)
    (hst : ctx2.current_state = .confirmation)
    (hmap : confirmation_mapping.lookup (pyLower r.intentName) = some "confirm") :
    enhance_with_state_logic r ctx2 =
      .ok { r with intentName := "confirm",
                   confidence := pyMin (r.confidence + 1/10) 1 } := by
  have hni : is_interruption_intent "confirm" = false := by decide
  simp [enhance_with_state_logic, hst, handle_confirmation_response, hmap, hni]

/-- When the updated conversation is in neither `Confirmation` nor
`Validation` and the intent is no interruption token, the enhancement
step returns the result unchanged. -/
theorem enhance_plain (r : ContextualNLUResult) (ctx2 : ConversationContext)
    (hst1 : ctx2.current_state ≠ .confirmation)
    (hst2 : ctx2.current_state ≠ .validation)
    (hni : is_interruption_intent r.intentName = false) :
    enhance_with_state_logic r ctx2 = .ok r := by
  simp [enhance_with_state_logic, hst1, hst2, hni]

/-- Unfolding of `process_with_context_tail` on a known conversation
whose turn resolution and enhancement both succeed. -/
theorem tail_eq (m : Registry) (cid t i : String) (c : ℚ)
    (ents : List (String × PyVal)) (rc : Bool)
    (ctx rec2 : ConversationContext) (r : ContextualNLUResult)
    (hm : m.lookup cid = some ctx)
    (hpi : process_input m cid (.pstr i) (.edict ents) c =
      (pySet m cid rec2, .ok rec2))
    (henh : enhance_with_state_logic
      { intentName := i, text := t, confidence := c, entities := ents,
        requiresConfirmation := rc } rec2 = .ok r) :
    process_with_context_tail m cid t i c ents rc = (pySet m cid rec2, .ok r) := by
  unfold process_with_context_tail
  rw [hm]
  simp only [hpi, henh]

/-- The registry with conversation `"c1"` sitting in `Confirmation`,
awaiting the user's reply. -/
def ctxConf : ConversationContext :=
  { user_id := "u1", conversation_id := "c1", current_state := .confirmation }

/-- Registry for the confirmation-reply scenario. -/
def regC : Registry := [("c1", ctxConf)]

/-- C3 counterexample: with prior state `Confirmation`, the affirmative
reply `"yes"` at confidence 0.85 is mapped to `"confirm"` with boosted
confidence 0.95, which clears 0.9 — yet the STORED conversation stays
in `Confirmation` (the state machine ran on the raw confidence 0.85
before the mapper), refuting the claim that the mapper feeds the
confirmation-policy check and that the stored state becomes
`Execution` whenever the boosted confidence clears 0.9. -/
theorem C3_counterexample :
    (process_with_context_tail regC "c1" "yes" "yes" (17/20) [] false).2 =
      .ok { intentName := "confirm", text := "yes", confidence := 19/20,
            entities := [], requiresConfirmation := false } ∧
    (9/10 : ℚ) ≤ 19/20 ∧
    ∃ ctx2,
      (process_with_context_tail regC "c1" "yes" "yes" (17/20) [] false).1.lookup "c1"
        = some ctx2 ∧
      ctx2.current_state = .confirmation ∧
      ctx2.current_state ≠ .execution := by
  have hm : regC.lookup "c1" = some ctxConf := by decide
  have hcc : (17/20 : ℚ) < 9/10 := by norm_num
  have hpi := process_input_found regC "c1" ctxConf (.pstr "yes") [] (17/20) hm
  rw [resolveTurn_pstr _ "yes" rfl, if_neg (by decide), if_pos (Or.inr hcc)] at hpi
  have hpi2 : process_input regC "c1" (.pstr "yes") (.edict []) (17/20) =
      (pySet regC "c1" { ctxConf with intent := PyIntent.pstr "yes", entities := dictUpdate ctxConf.entities [], confidence := 17/20, current_state := ConversationState.confirmation },
       .ok { ctxConf with intent := PyIntent.pstr "yes", entities := dictUpdate ctxConf.entities [], confidence := 17/20, current_state := ConversationState.confirmation }) := hpi
  have henh := enhance_confirmation
    { intentName := "yes", text := "yes", confidence := 17/20, entities := [],
      requiresConfirmation := false }
    { ctxConf with intent := PyIntent.pstr "yes", entities := dictUpdate ctxConf.entities [], confidence := 17/20, current_state := ConversationState.confirmation }
    rfl (by decide)
  have htail := tail_eq regC "c1" "yes" "yes" (17/20) [] false ctxConf _ _ hm hpi2 henh
  have hgain : pyMin ((17/20 : ℚ) + 1/10) 1 = 19/20 := by
    rw [pyMin, if_pos (by norm_num)]
    norm_num
  rw [htail]
  refine ⟨?_, by norm_num, ?_⟩
  · show Except.ok _ = _
    rw [show ({ intentName := "confirm", text := "yes", confidence := pyMin ((17/20 : ℚ) + 1/10) 1, entities := [], requiresConfirmation := false } : ContextualNLUResult) = { intentName := "confirm", text := "yes", confidence := 19/20, entities := [], requiresConfirmation := false } from by rw [hgain]]
  · exact ⟨_, lookup_pySet regC "c1" _, rfl, by decide⟩

/-- C3 (amended): the ConfirmationMapper is applied AFTER the
state-machine update, keyed on the conversation's POST-turn state, and
rewrites only the returned NLU result. For a reply whose lowered intent
maps to `"confirm"` (not destructive, not an interruption token), the
stored conversation's state is decided by the RAW confidence alone —
`Confirmation` when it is below 0.9, `Execution` otherwise — while the
returned result carries intent `"confirm"` and confidence boosted by
0.1 capped at 1.0 exactly when the post-turn state is `Confirmation`,
and passes through unmapped otherwise. -/
theorem C3_mapper_after_state_update (m : Registry) (cid : String)
    (ctx : ConversationContext) (t i : String) (c : ℚ)
    (ents : List (String × PyVal)) (rc : Bool)
    (hm : m.lookup cid = some ctx)
    (hmap : confirmation_mapping.lookup (pyLower i) = some "confirm")
    (hni : pyLower i ∉ interruption_intents)
    (hnd : i ∉ confirmation_required_intents)
    (hnii : is_interruption_intent i = false) :
    ∃ ctx2,
      (process_with_context_tail m cid t i c ents rc).1.lookup cid = some ctx2 ∧
      ctx2.current_state =
        (if c < 9/10 then ConversationState.confirmation
         else ConversationState.execution) ∧
      (c < 9/10 →
        (process_with_context_tail m cid t i c ents rc).2 =
          .ok { intentName := "confirm", text := t,
                confidence := pyMin (c + 1/10) 1, entities := ents,
                requiresConfirmation := rc }) ∧
      (¬ c < 9/10 →
        (process_with_context_tail m cid t i c ents rc).2 =
          .ok { intentName := i, text := t, confidence := c,
                entities := ents, requiresConfirmation := rc }) := by
  have hpi := process_input_found m cid ctx (.pstr i) ents c hm
  rw [resolveTurn_pstr _ i rfl, if_neg hni] at hpi
  by_cases hcc : c < 9/10
  · have hcond : i ∈ confirmation_required_intents ∨
        ({ ctx with intent := PyIntent.pstr i, entities := dictUpdate ctx.entities ents, confidence := c } : ConversationContext).confidence < 9/10 :=
      Or.inr hcc
    rw [if_pos hcond] at hpi
    have hpi2 : process_input m cid (.pstr i) (.edict ents) c =
        (pySet m cid { ctx with intent := PyIntent.pstr i, entities := dictUpdate ctx.entities ents, confidence := c, current_state := ConversationState.confirmation },
         .ok { ctx with intent := PyIntent.pstr i, entities := dictUpdate ctx.entities ents, confidence := c, current_state := ConversationState.confirmation }) := hpi
    have henh := enhance_confirmation
      { intentName := i, text := t, confidence := c, entities := ents,
        requiresConfirmation := rc }
      { ctx with intent := PyIntent.pstr i, entities := dictUpdate ctx.entities ents, confidence := c, current_state := ConversationState.confirmation }
      rfl hmap
    have htail := tail_eq m cid t i c ents rc ctx _ _ hm hpi2 henh
    rw [htail]
    refine ⟨_, lookup_pySet m cid _, ?_, fun _ => rfl, fun h => absurd hcc h⟩
    rw [if_pos hcc]
  · have hcond : ¬ (i ∈ confirmation_required_intents ∨
        ({ ctx with intent := PyIntent.pstr i, entities := dictUpdate ctx.entities ents, confidence := c } : ConversationContext).confidence < 9/10) := by
      intro hor
      rcases hor with h1 | h2
      · exact hnd h1
      · exact hcc h2
    rw [if_neg hcond] at hpi
    have hpi2 : process_input m cid (.pstr i) (.edict ents) c =
        (pySet m cid { ctx with intent := PyIntent.pstr i, entities := dictUpdate ctx.entities ents, confidence := c, current_state := ConversationState.execution },
         .ok { ctx with intent := PyIntent.pstr i, entities := dictUpdate ctx.entities ents, confidence := c, current_state := ConversationState.execution }) := hpi
    have henh := enhance_plain
      { intentName := i, text := t, confidence := c, entities := ents,
        requiresConfirmation := rc }
      { ctx with intent := PyIntent.pstr i, entities := dictUpdate ctx.entities ents, confidence := c, current_state := ConversationState.execution }
      (by intro hcon; cases hcon) (by intro hcon; cases hcon) hnii
    have htail := tail_eq m cid t i c ents rc ctx _ _ hm hpi2 henh
    rw [htail]
    refine ⟨_, lookup_pySet m cid _, ?_, fun h => absurd h hcc, fun _ => rfl⟩
    rw [if_neg hcc]

/-- Witness for C3 (amended): the `"yes"`-at-0.85 scenario from the
counterexample, now read through the amended description. -/
theorem C3_mapper_after_state_update_witness :
    ∃ ctx2,
      (process_with_context_tail regC "c1" "yes" "yes" (17/20) [] false).1.lookup "c1"
        = some ctx2 ∧
      ctx2.current_state =
        (if (17/20 : ℚ) < 9/10 then ConversationState.confirmation
         else ConversationState.execution) ∧
      ((17/20 : ℚ) < 9/10 →
        (process_with_context_tail regC "c1" "yes" "yes" (17/20) [] false).2 =
          .ok { intentName := "confirm", text := "yes",
                confidence := pyMin ((17/20 : ℚ) + 1/10) 1, entities := [],
                requiresConfirmation := false }) ∧
      (¬ (17/20 : ℚ) < 9/10 →
        (process_with_context_tail regC "c1" "yes" "yes" (17/20) [] false).2 =
          .ok { intentName := "yes", text := "yes", confidence := (17/20 : ℚ),
                entities := [], requiresConfirmation := false }) :=
  C3_mapper_after_state_update regC "c1" ctxConf "yes" "yes" (17/20) [] false
    (by decide) (by decide) (by decide) (by decide) (by decide)

end Mere
